import Mathlib

/-! Verification of the per-workspace language-client lifecycle manager
(`LeanClientProvider` and `InfoProvider` from
`src/vscode-lean4/src/utils/clientProvider.ts`).

The TypeScript runs single-threaded with cooperative interleaving at `await`
points.  The embedding gives each relevant method a pure Lean function on an
explicit state record; `ensureClient` is additionally split into the
synchronous segment before its version-probe `await` (`ensureClientA`) and
the continuation after it (`ensureClientB`), so interleavings of concurrent
calls can be analysed as a small-step machine.  JavaScript `Map`s are
insertion-ordered association lists; `string.startsWith` is prefix on the
character sequence; `Uri`s and locations are their `toString()` forms.
External collaborators are oracle parameters: the installer's
`testLeanVersion` probe is `oracle : String -> LeanVersion`, and the
server-assigned RPC session id of an `rpc/connect` reply is passed in.
`findLeanPackageRoot` (defined in `projectInfo.ts`, outside this source) is
factored out by passing the resolved project-root string directly.
Externally visible effects (client construction, disposal, start, restart,
events fired, handler handles disposed) are recorded in ledger fields so
theorems can speak about them. -/

/-- JavaScript `a.startsWith(b)`: `b` is a prefix of the character sequence
of `a`. -/
def strStartsWith (a b : String) : Bool := b.data.isPrefixOf a.data

/-- Result of the installer's `testLeanVersion` probe:
`{version: string, error?: string}`. -/
structure LeanVersion where
  version : String
  error : Option String
deriving DecidableEq

/-- A `LeanClient` connection object: `id` tracks object identity
(allocation order), `folder` is what `getWorkspaceFolder()` returns, the
root location string the client was created for. -/
structure LeanClient where
  id : Nat
  folder : String
deriving DecidableEq

/-- Lookup in an insertion-ordered association list (JavaScript `Map.get`,
with `Map.has` being `isSome`). -/
def alookup {α : Type} (m : List (String × α)) (k : String) : Option α :=
  match m with
  | [] => none
  | (k', v) :: rest => if k' = k then some v else alookup rest k

/-- JavaScript `Map.set`: overwrite in place, or append a new key at the
end (insertion order). -/
def aset {α : Type} (m : List (String × α)) (k : String) (v : α) :
    List (String × α) :=
  match m with
  | [] => [(k, v)]
  | (k', v') :: rest => if k' = k then (k', v) :: rest else (k', v') :: aset rest k v

/-- JavaScript `Map.delete`. -/
def aerase {α : Type} (m : List (String × α)) (k : String) : List (String × α) :=
  m.filter (fun kv => decide (kv.1 ≠ k))

/-- `Map.set(k, true)` on a `Map<string, boolean>` used as a key set. -/
def sinsert (l : List String) (k : String) : List String :=
  if k ∈ l then l else l ++ [k]

/-- `Map.delete(k)` on a `Map<string, boolean>` used as a key set. -/
def sremove (l : List String) (k : String) : List String :=
  l.filter (fun x => decide (x ≠ k))

theorem alookup_aset_self {α : Type} (m : List (String × α)) (k : String) (v : α) :
    alookup (aset m k v) k = some v := by
  induction m with
  | nil => simp [aset, alookup]
  | cons kv rest ih =>
    obtain ⟨k', v'⟩ := kv
    by_cases h : k' = k <;> simp [aset, alookup, h, ih]

theorem alookup_aset_ne {α : Type} (m : List (String × α)) (k k' : String) (v : α)
    (h : k ≠ k') : alookup (aset m k v) k' = alookup m k' := by
  induction m with
  | nil => simp [aset, alookup, h]
  | cons kv rest ih =>
    obtain ⟨k1, v1⟩ := kv
    by_cases h1 : k1 = k
    · subst h1; simp [aset, alookup, h]
    · simp [aset, alookup, h1, ih]

theorem alookup_none_key {α : Type} (m : List (String × α)) (k : String)
    (h : alookup m k = none) : ∀ kv ∈ m, kv.1 ≠ k := by
  induction m with
  | nil => intro kv hkv; simp at hkv
  | cons kv0 rest ih =>
    obtain ⟨k', v'⟩ := kv0
    intro kv hkv
    by_cases h1 : k' = k
    · simp [alookup, h1] at h
    · simp only [alookup, if_neg h1] at h
      rcases List.mem_cons.mp hkv with rfl | hm
      · exact h1
      · exact ih h kv hm

theorem alookup_mem {α : Type} (m : List (String × α)) (k : String) (v : α)
    (h : alookup m k = some v) : (k, v) ∈ m := by
  induction m with
  | nil => simp [alookup] at h
  | cons kv rest ih =>
    obtain ⟨k', v'⟩ := kv
    by_cases h1 : k' = k
    · subst h1
      simp [alookup] at h
      subst h
      exact List.mem_cons_self _ _
    · simp [alookup, h1] at h
      exact List.mem_cons_of_mem _ (ih h)

theorem aerase_aset_of_none {α : Type} (m : List (String × α)) (k : String) (v : α)
    (h : alookup m k = none) : aerase (aset m k v) k = m := by
  induction m with
  | nil => simp [aset, aerase, List.filter]
  | cons kv rest ih =>
    obtain ⟨k', v'⟩ := kv
    by_cases h1 : k' = k
    · simp [alookup, h1] at h
    · simp [alookup, h1] at h
      simp [aset, aerase, h1, List.filter] at ih ⊢
      exact ih h

theorem aset_of_lookup_self {α : Type} (m : List (String × α)) (k : String) (v : α)
    (h : alookup m k = some v) : aset m k v = m := by
  induction m with
  | nil => simp [alookup] at h
  | cons kv rest ih =>
    obtain ⟨k', v'⟩ := kv
    by_cases h1 : k' = k
    · subst h1
      simp [alookup] at h
      simp [aset, h]
    · simp [alookup, h1] at h
      simp [aset, h1, ih h]

theorem sremove_sinsert (l : List String) (k : String) (h : k ∉ l) :
    sremove (sinsert l k) k = l := by
  simp only [sinsert, if_neg h, sremove, List.filter_append]
  simp [List.filter]
  intro a ha hak
  exact h (hak ▸ ha)

theorem mem_sinsert_self (l : List String) (k : String) : k ∈ sinsert l k := by
  by_cases h : k ∈ l <;> simp [sinsert, h]

/-- The mutable fields of `LeanClientProvider`, extended with ledgers that
record the externally visible effects: every client object ever
constructed (`created`), and the ids of clients disposed, started and
restarted, and of clients for which the `clientAdded` event fired. -/
structure ProviderState where
  clients : List (String × LeanClient)
  versions : List (String × LeanVersion)
  pending : List String
  testing : List String
  nextId : Nat
  created : List LeanClient
  disposed : List Nat
  started : List Nat
  restarted : List Nat
  clientAddedEvents : List Nat
  activeClient : Option LeanClient
deriving DecidableEq

/-- `Uri.from(scheme untitled).toString()`: the synthetic root shared by
all documents without a physical project root. -/
def untitledRoot : String := "untitled:"

/-- `getLeanVersion` (lines 184-199): consult the per-root `versions`
cache; on a miss treat untitled roots as version 4, otherwise probe the
installer (`oracle`), and cache the result. -/
def getLeanVersion (oracle : String → LeanVersion) (s : ProviderState)
    (root : String) : ProviderState × LeanVersion :=
  match alookup s.versions root with
  | some v => (s, v)
  | none =>
    let v := if root = untitledRoot then { version := "4", error := none } else oracle root
    ({ s with versions := aset s.versions root v }, v)

/-- The version `getLeanVersion` resolves for a root in a given state. -/
def probeValue (oracle : String → LeanVersion) (s : ProviderState)
    (root : String) : LeanVersion :=
  match alookup s.versions root with
  | some v => v
  | none => if root = untitledRoot then { version := "4", error := none } else oracle root

/-- The client object `ensureClient` allocates when none is registered for
a root: identity is the next allocation number. -/
def freshClient (s : ProviderState) (root : String) : LeanClient :=
  { id := s.nextId, folder := root }

/-- Outcome of the synchronous first segment of `ensureClient`: either the
call returned without suspending, or it is parked at the version-probe
`await` holding its optimistically registered client. -/
inductive EnsureOutcome where
  | done (cached : Bool) (client : Option LeanClient)
  | probing (client : LeanClient)
deriving DecidableEq

/-- Synchronous segment of `ensureClient` up to the version-probe `await`
(lines 204-227): fast path returning a cached client, the pending-guard
path, or optimistic allocation and registration of a new client before any
probe. -/
def ensureClientA (s : ProviderState) (root : String) :
    ProviderState × EnsureOutcome :=
  match alookup s.clients root with
  | some c => ({ s with activeClient := some c }, .done true (some c))
  | none =>
    if root ∈ s.pending then
      ({ s with activeClient := none }, .done false none)
    else
      let c := freshClient s root
      ({ s with
          pending := sinsert s.pending root
          clients := aset s.clients root c
          nextId := s.nextId + 1
          created := s.created ++ [c] },
        .probing c)

/-- Continuation of `ensureClient` after the probe (lines 228-266): resolve
the version (unless a `versionInfo` argument was supplied), deregister and
dispose foreign-version clients returning `[false, undefined]`, otherwise
clear the pending guard, fire `clientAdded`, and start the server unless
the probe reported an error. -/
def ensureClientB (oracle : String → LeanVersion) (s : ProviderState)
    (root : String) (c : LeanClient) (vinfo : Option LeanVersion) :
    ProviderState × Bool × Option LeanClient :=
  let sv := match vinfo with
    | some v => (s, v)
    | none => getLeanVersion oracle s root
  let s1 := sv.1
  let v := sv.2
  if v.version ≠ "" ∧ v.version ≠ "4" then
    ({ s1 with
        pending := sremove s1.pending root
        clients := aerase s1.clients root
        disposed := s1.disposed ++ [c.id] },
      false, none)
  else
    let s2 := { s1 with
        pending := sremove s1.pending root
        clientAddedEvents := s1.clientAddedEvents ++ [c.id] }
    let s3 := if v.error = none then { s2 with started := s2.started ++ [c.id] } else s2
    ({ s3 with activeClient := some c }, false, some c)

/-- `ensureClient` run to completion with no interleaved call. -/
def ensureClient (oracle : String → LeanVersion) (s : ProviderState)
    (root : String) (vinfo : Option LeanVersion) :
    ProviderState × Bool × Option LeanClient :=
  match ensureClientA s root with
  | (s', .done cached c) => (s', cached, c)
  | (s', .probing c) => ensureClientB oracle s' root c vinfo

/-- `getClients` (lines 169-171): the registered clients in `Map`
insertion order. -/
def getClients (s : ProviderState) : List LeanClient :=
  s.clients.map (fun kv => kv.2)

/-- `findClient` (lines 158-167): walk the active clients in order and
return the first one whose workspace-folder string the document path
starts with; `null` when the path is empty or nothing matches. -/
def findClient (clients : List LeanClient) (path : String) : Option LeanClient :=
  if path = "" then none
  else clients.find? (fun c => strStartsWith path c.folder)

/-- First segment of the `installer.installChanged` handler (lines 64-75):
the re-entrancy guard keyed by the signal's own location string.  Returns
`false` (signal dropped after a log, state unchanged) when a signal for
the same trigger location is still being handled, else sets the guard. -/
def installChangedA (s : ProviderState) (sigPath : String) :
    ProviderState × Bool :=
  if sigPath ∈ s.testing then (s, false)
  else ({ s with testing := sinsert s.testing sigPath }, true)

/-- Remainder of the handler (lines 76-93), given the root the signal
resolves to (via `findLeanPackageRoot`, untitled fallback) and the result
`v` of the fresh `testLeanVersion` probe: on the supported version call
`ensureClient` and, when that reports the client was already cached,
restart it; on other versions only log.  Finally release the guard.
Returns the id of the restarted client, if any. -/
def installChangedB (oracle : String → LeanVersion) (s : ProviderState)
    (sigPath root : String) (v : LeanVersion) : ProviderState × Option Nat :=
  let sr :=
    if v.version = "4" then
      let r := ensureClient oracle s root (some v)
      match r.2.1, r.2.2 with
      | true, some c => ({ r.1 with restarted := r.1.restarted ++ [c.id] }, some c.id)
      | _, _ => (r.1, none)
    else (s, none)
  ({ sr.1 with testing := sremove sr.1.testing sigPath }, sr.2)

/-- A disposable handler handle returned by one of the subscribe helpers
(`subscribeDiagnosticsNotification`, `subscribeCustomNotification`,
`subscribeDidChangeNotification`, `subscribeDidCloseNotification`): an
event-emitter subscription for `method` on the client identified by
`clientId`.  `hid` is its allocation number. -/
structure Handle where
  hid : Nat
  clientId : Nat
  method : String
deriving DecidableEq

/-- The `RpcSession` class (lines 297-318): server-assigned id, owning
client, target document, and whether the keep-alive heartbeat interval is
still running.  `dispose` clears the interval. -/
structure RpcSession where
  sessionId : String
  clientId : Nat
  uri : String
  heartbeatActive : Bool
deriving DecidableEq

/-- `RpcSession.dispose` (lines 314-317): clear the keep-alive interval. -/
def RpcSession.dispose (r : RpcSession) : RpcSession :=
  { r with heartbeatActive := false }

/-- The mutable fields of `InfoProvider` that the subscription and RPC
session claims concern.  `providerClients` is what
`clientProvider.getClients()` returns; `disposedHandles` and
`disposedSessions` are ledgers of every handle id and session on which
`dispose` was called. -/
structure InfoState where
  providerClients : List LeanClient
  serverNotifSubscriptions : List (String × Nat × List Handle)
  clientNotifSubscriptions : List (String × Nat × List Handle)
  rpcSessions : List (String × RpcSession)
  nextHandleId : Nat
  disposedHandles : List Nat
  disposedSessions : List RpcSession
  webviewPresent : Bool
deriving DecidableEq

/-- One subscribe-helper call per currently active client, each returning a
fresh disposable handle; also returns the next free allocation number. -/
def mkHandles (clients : List LeanClient) (method : String) (nextId : Nat) :
    List Handle × Nat :=
  match clients with
  | [] => ([], nextId)
  | c :: rest =>
    let r := mkHandles rest method (nextId + 1)
    ({ hid := nextId, clientId := c.id, method := method } :: r.1, r.2)

def publishDiagnosticsMethod : String := "textDocument/publishDiagnostics"

def didChangeMethod : String := "textDocument/didChange"

def didCloseMethod : String := "textDocument/didClose"

/-- The allow-list of server-notification method shapes (lines 390-404):
`textDocument/publishDiagnostics` or a method under the server's private
dollar prefix. -/
def serverMethodOk (m : String) : Bool :=
  decide (m = publishDiagnosticsMethod) || strStartsWith m "$"

/-- The allow-list of client-notification method shapes (lines 428-442). -/
def clientMethodOk (m : String) : Bool :=
  decide (m = didChangeMethod) || decide (m = didCloseMethod)

/-- `editorApi.subscribeServerNotifications` (lines 379-405): bump the
reference count of an existing entry, or install one handler per active
client for an allowed method, or fail.  The two allowed shapes install
different handler kinds in the source; both are one handle per client. -/
def subscribeServerNotifications (s : InfoState) (method : String) :
    Except String InfoState :=
  match alookup s.serverNotifSubscriptions method with
  | some (count, h) =>
    .ok { s with serverNotifSubscriptions := aset s.serverNotifSubscriptions method (count + 1, h) }
  | none =>
    if serverMethodOk method then
      let r := mkHandles s.providerClients method s.nextHandleId
      .ok { s with
        serverNotifSubscriptions := aset s.serverNotifSubscriptions method (1, r.1),
        nextHandleId := r.2 }
    else
      .error ("subscription to " ++ method ++ " server notifications not implemented")

/-- `editorApi.unsubscribeServerNotifications` (lines 406-418). -/
def unsubscribeServerNotifications (s : InfoState) (method : String) :
    Except String InfoState :=
  match alookup s.serverNotifSubscriptions method with
  | none =>
    .error ("trying to unsubscribe from " ++ method ++ " with no active subscriptions")
  | some (count, subs) =>
    if count = 1 then
      .ok { s with
        disposedHandles := s.disposedHandles ++ subs.map Handle.hid,
        serverNotifSubscriptions := aerase s.serverNotifSubscriptions method }
    else
      .ok { s with serverNotifSubscriptions := aset s.serverNotifSubscriptions method (count - 1, subs) }

/-- `editorApi.subscribeClientNotifications` (lines 420-443). -/
def subscribeClientNotifications (s : InfoState) (method : String) :
    Except String InfoState :=
  match alookup s.clientNotifSubscriptions method with
  | some (count, h) =>
    .ok { s with clientNotifSubscriptions := aset s.clientNotifSubscriptions method (count + 1, h) }
  | none =>
    if clientMethodOk method then
      let r := mkHandles s.providerClients method s.nextHandleId
      .ok { s with
        clientNotifSubscriptions := aset s.clientNotifSubscriptions method (1, r.1),
        nextHandleId := r.2 }
    else
      .error ("Subscription to " ++ method ++ " client notifications not implemented")

/-- `editorApi.unsubscribeClientNotifications` (lines 445-457). -/
def unsubscribeClientNotifications (s : InfoState) (method : String) :
    Except String InfoState :=
  match alookup s.clientNotifSubscriptions method with
  | none =>
    .error ("trying to unsubscribe from " ++ method ++ " with no active subscriptions")
  | some (count, subs) =>
    if count = 1 then
      .ok { s with
        disposedHandles := s.disposedHandles ++ subs.map Handle.hid,
        clientNotifSubscriptions := aerase s.clientNotifSubscriptions method }
    else
      .ok { s with clientNotifSubscriptions := aset s.clientNotifSubscriptions method (count - 1, subs) }

/-- One loop of `onClientRestarted` (lines 553-567): for every table entry
whose method matches the allow-list, push one freshly created handle for
the restarted client onto the entry's handle array.  Existing handles are
not touched. -/
def pushRestartHandles (clientId : Nat) (ok : String → Bool)
    (t : List (String × Nat × List Handle)) (nextId : Nat) :
    List (String × Nat × List Handle) × Nat :=
  match t with
  | [] => ([], nextId)
  | (m, count, subs) :: rest =>
    if ok m then
      let r := pushRestartHandles clientId ok rest (nextId + 1)
      ((m, count, subs ++ [{ hid := nextId, clientId := clientId, method := m }]) :: r.1, r.2)
    else
      let r := pushRestartHandles clientId ok rest nextId
      ((m, count, subs) :: r.1, r.2)

/-- `onClientRestarted` (lines 539-574), restricted to its effect on the
two subscription tables: re-subscribe every currently subscribed method on
the restarted client.  The handles live on the same `LeanClient` object,
which is restarted in place, so handles installed before the restart stay
subscribed; this persistence across restarts is modelled from the spec
(restarted, not recreated, so existing subscriptions remain valid), the
`LeanClient` emitter internals being outside this source. -/
def onClientRestarted (s : InfoState) (clientId : Nat) : InfoState :=
  let rc := pushRestartHandles clientId clientMethodOk s.clientNotifSubscriptions s.nextHandleId
  let rs := pushRestartHandles clientId serverMethodOk s.serverNotifSubscriptions rc.2
  { s with
    clientNotifSubscriptions := rc.1,
    serverNotifSubscriptions := rs.1,
    nextHandleId := rs.2 }

/-- The `client === null || sess.client === client` test of
`clearRpcSessions`. -/
def sessionMatches (client : Option Nat) (sess : RpcSession) : Bool :=
  match client with
  | none => true
  | some c => decide (sess.clientId = c)

/-- `clearRpcSessions` (lines 643-653): dispose and drop the sessions of
the given client (all sessions when called with `null`), keep the rest in
order. -/
def clearRpcSessions (s : InfoState) (client : Option Nat) : InfoState :=
  { s with
    rpcSessions := s.rpcSessions.filter (fun p => !(sessionMatches client p.2)),
    disposedSessions := s.disposedSessions ++
      ((s.rpcSessions.filter (fun p => sessionMatches client p.2)).map
        (fun p => RpcSession.dispose p.2)) }

/-- `onClientRemoved` (lines 599-601): the body is an empty todo comment;
nothing is cleaned up when a client is removed from the registry. -/
def onClientRemoved (s : InfoState) (_clientId : Nat) : InfoState := s

/-- `editorApi.createRpcSession` (lines 480-492).  `sid` is the session id
assigned by the server's `rpc/connect` reply; `s` is the state at the
moment that reply arrives (the webview may have closed during the await). -/
def createRpcSession (s : InfoState) (uri : String) (sid : String) :
    InfoState × Except String String :=
  match findClient s.providerClients uri with
  | none => (s, .ok "")
  | some c =>
    let session : RpcSession :=
      { sessionId := sid, clientId := c.id, uri := uri, heartbeatActive := true }
    if s.webviewPresent then
      ({ s with rpcSessions := aset s.rpcSessions sid session }, .ok sid)
    else
      ({ s with disposedSessions := s.disposedSessions ++ [RpcSession.dispose session] },
        .error "infoview disconnect while connecting to RPC session")

/-- `editorApi.closeRpcSession` (lines 493-499): idempotent removal. -/
def closeRpcSession (s : InfoState) (sid : String) : InfoState :=
  match alookup s.rpcSessions sid with
  | none => s
  | some sess =>
    { s with
      rpcSessions := aerase s.rpcSessions sid,
      disposedSessions := s.disposedSessions ++ [RpcSession.dispose sess] }

/-- Number of handler handles currently installed (created and not yet
disposed) for client `c` and method `m` in the server-notification
table. -/
def handlersForServer (s : InfoState) (c : Nat) (m : String) : Nat :=
  match alookup s.serverNotifSubscriptions m with
  | none => 0
  | some (_, subs) =>
    (subs.filter (fun h => decide (h.clientId = c) && !(s.disposedHandles.contains h.hid))).length

/-- Number of handler handles currently installed (created and not yet
disposed) for client `c` and method `m` in the client-notification
table. -/
def handlersForClient (s : InfoState) (c : Nat) (m : String) : Nat :=
  match alookup s.clientNotifSubscriptions m with
  | none => 0
  | some (_, subs) =>
    (subs.filter (fun h => decide (h.clientId = c) && !(s.disposedHandles.contains h.hid))).length

/-- The lifecycle of one `ensureClient` call triggered by a document-opened
event on the shared root: not yet run, suspended at the version probe with
its optimistically registered client, or returned. -/
inductive TaskSt where
  | start
  | probing (c : LeanClient)
  | finished (cached : Bool) (client : Option LeanClient)
deriving DecidableEq

/-- Provider state together with the in-flight `ensureClient` calls for
one root. -/
structure Config where
  s : ProviderState
  tasks : List TaskSt
deriving DecidableEq

/-- Run one cooperative segment of a task.  A finished task steps idly. -/
def stepTask (oracle : String → LeanVersion) (root : String)
    (s : ProviderState) : TaskSt → ProviderState × TaskSt
  | .start =>
    match ensureClientA s root with
    | (s', .done cached c) => (s', .finished cached c)
    | (s', .probing c) => (s', .probing c)
  | .probing c =>
    let r := ensureClientB oracle s root c none
    (r.1, .finished r.2.1 r.2.2)
  | .finished cached c => (s, .finished cached c)

/-- Cooperative interleaving: at each step the scheduler resumes one
task. -/
inductive Step (oracle : String → LeanVersion) (root : String) :
    Config → Config → Prop where
  | step (s : ProviderState) (tasks : List TaskSt) (i : Nat) (h : i < tasks.length) :
      Step oracle root ⟨s, tasks⟩
        ⟨(stepTask oracle root s (tasks.get ⟨i, h⟩)).1,
          tasks.set i (stepTask oracle root s (tasks.get ⟨i, h⟩)).2⟩

/-- Configurations reachable by some interleaving. -/
def Reachable (oracle : String → LeanVersion) (root : String) :
    Config → Config → Prop :=
  Relation.ReflTransGen (Step oracle root)

/-- The client objects constructed so far for a given root. -/
def createdFor (s : ProviderState) (root : String) : List LeanClient :=
  s.created.filter (fun c => decide (c.folder = root))

/-- Every non-idle task holds, or has returned, the one shared client. -/
def TaskOk (c : LeanClient) : TaskSt → Prop
  | .start => True
  | .probing c' => c' = c
  | .finished _ cl => cl = some c

/-- Inductive invariant of the machine started from `s₀` on a root whose
probe resolves to the supported version: either nothing happened yet for
the root, or exactly one client has been allocated and registered and
every task agrees on it. -/
def InvP (oracle : String → LeanVersion) (s₀ : ProviderState) (root : String)
    (cfg : Config) : Prop :=
  (alookup cfg.s.clients root = none ∧ root ∉ cfg.s.pending ∧
    createdFor cfg.s root = createdFor s₀ root ∧ cfg.s.nextId = s₀.nextId ∧
    alookup cfg.s.versions root = alookup s₀.versions root ∧
    ∀ t ∈ cfg.tasks, t = TaskSt.start)
  ∨ (alookup cfg.s.clients root = some (freshClient s₀ root) ∧
      createdFor cfg.s root = createdFor s₀ root ++ [freshClient s₀ root] ∧
      (alookup cfg.s.versions root = alookup s₀.versions root ∨
        alookup cfg.s.versions root = some (probeValue oracle s₀ root)) ∧
      ∀ t ∈ cfg.tasks, TaskOk (freshClient s₀ root) t)

theorem getLeanVersion_spec (oracle : String → LeanVersion) (s s₀ : ProviderState)
    (root : String)
    (h : alookup s.versions root = alookup s₀.versions root ∨
         alookup s.versions root = some (probeValue oracle s₀ root)) :
    (getLeanVersion oracle s root).2 = probeValue oracle s₀ root ∧
    ((getLeanVersion oracle s root).1 = s ∨
      (getLeanVersion oracle s root).1 =
        { s with versions := aset s.versions root (probeValue oracle s₀ root) }) ∧
    (alookup (getLeanVersion oracle s root).1.versions root = alookup s₀.versions root ∨
      alookup (getLeanVersion oracle s root).1.versions root = some (probeValue oracle s₀ root)) := by
  cases halv : alookup s.versions root with
  | some v =>
    have hpv : v = probeValue oracle s₀ root := by
      rcases h with h | h
      · rw [halv] at h
        simp only [probeValue, ← h]
      · rw [halv] at h
        exact Option.some.inj h
    simp only [getLeanVersion, halv]
    exact ⟨hpv, Or.inl trivial, Or.inr (by rw [hpv])⟩
  | none =>
    rcases h with h | h
    · rw [halv] at h
      have hpv : (if root = untitledRoot then { version := "4", error := none } else oracle root) =
          probeValue oracle s₀ root := by
        simp only [probeValue, ← h]
      simp only [getLeanVersion, halv]
      refine ⟨hpv, Or.inr (by rw [hpv]), Or.inr ?_⟩
      rw [hpv, alookup_aset_self]
    · rw [halv] at h
      exact absurd h (by simp)

theorem ensureClientB_supported (oracle : String → LeanVersion) (s s₀ : ProviderState)
    (root : String) (c : LeanClient)
    (hver : alookup s.versions root = alookup s₀.versions root ∨
            alookup s.versions root = some (probeValue oracle s₀ root))
    (hv : (probeValue oracle s₀ root).version = "4") :
    (ensureClientB oracle s root c none).2.1 = false ∧
    (ensureClientB oracle s root c none).2.2 = some c ∧
    (ensureClientB oracle s root c none).1.clients = s.clients ∧
    (ensureClientB oracle s root c none).1.created = s.created ∧
    (ensureClientB oracle s root c none).1.nextId = s.nextId ∧
    (alookup (ensureClientB oracle s root c none).1.versions root = alookup s₀.versions root ∨
      alookup (ensureClientB oracle s root c none).1.versions root = some (probeValue oracle s₀ root)) ∧
    (ensureClientB oracle s root c none).1.clientAddedEvents = s.clientAddedEvents ++ [c.id] ∧
    (ensureClientB oracle s root c none).1.started =
      (if (probeValue oracle s₀ root).error = none then s.started ++ [c.id] else s.started) ∧
    (ensureClientB oracle s root c none).1.pending = sremove s.pending root := by
  obtain ⟨g1, g2, g3⟩ := getLeanVersion_spec oracle s s₀ root hver
  rcases hgl : getLeanVersion oracle s root with ⟨s1, v⟩
  rw [hgl] at g1 g2 g3
  dsimp only at g1 g2 g3
  subst g1
  have hcond : ¬ ((probeValue oracle s₀ root).version ≠ "" ∧
      (probeValue oracle s₀ root).version ≠ "4") := by
    rw [hv]
    simp
  simp only [ensureClientB, hgl, if_neg hcond]
  rcases g2 with g2 | g2 <;> subst g2 <;>
    cases he : (probeValue oracle s₀ root).error <;>
      simp_all [he]

theorem invP_step (oracle : String → LeanVersion) (s₀ : ProviderState) (root : String)
    (hv : (probeValue oracle s₀ root).version = "4")
    (cfg cfg' : Config) (hstep : Step oracle root cfg cfg')
    (hinv : InvP oracle s₀ root cfg) : InvP oracle s₀ root cfg' := by
  cases hstep with
  | step s tasks i hi =>
    rcases hinv with ⟨h1, h2, h3, h4, h5, h6⟩ | ⟨h1, h3, h5, h6⟩
    · dsimp only at h1 h2 h3 h4 h5 h6
      have ht : tasks.get ⟨i, hi⟩ = TaskSt.start := h6 _ (tasks.get_mem i hi)
      rw [ht]
      have hA : ensureClientA s root =
          ({ s with
              pending := sinsert s.pending root,
              clients := aset s.clients root (freshClient s root),
              nextId := s.nextId + 1,
              created := s.created ++ [freshClient s root] },
            EnsureOutcome.probing (freshClient s root)) := by
        simp only [ensureClientA, h1, if_neg h2]
      have hfc : freshClient s root = freshClient s₀ root := by
        simp [freshClient, h4]
      right
      refine ⟨?_, ?_, ?_, ?_⟩
      · simp only [stepTask, hA]
        rw [← hfc]
        exact alookup_aset_self _ _ _
      · simp only [stepTask, hA]
        simp only [createdFor] at h3 ⊢
        simp [List.filter_append, freshClient, hfc, h3, ← h4]
      · simp only [stepTask, hA]
        exact Or.inl h5
      · simp only [stepTask, hA]
        intro t htm
        rcases List.mem_or_eq_of_mem_set htm with hm | rfl
        · rw [h6 _ hm]
          trivial
        · exact hfc
    · dsimp only at h1 h3 h5 h6
      have ht : TaskOk (freshClient s₀ root) (tasks.get ⟨i, hi⟩) :=
        h6 _ (tasks.get_mem i hi)
      cases htg : tasks.get ⟨i, hi⟩ with
      | start =>
        have hA : ensureClientA s root =
            ({ s with activeClient := some (freshClient s₀ root) },
              EnsureOutcome.done true (some (freshClient s₀ root))) := by
          simp only [ensureClientA, h1]
        right
        simp only [stepTask, hA]
        refine ⟨h1, h3, h5, ?_⟩
        intro t htm
        rcases List.mem_or_eq_of_mem_set htm with hm | rfl
        · exact h6 _ hm
        · rfl
      | probing c' =>
        rw [htg] at ht
        have hc : c' = freshClient s₀ root := ht
        subst hc
        obtain ⟨b1, b2, b3, b4, b5, b6, b7, b8, b9⟩ :=
          ensureClientB_supported oracle s s₀ root (freshClient s₀ root) h5 hv
        right
        refine ⟨?_, ?_, ?_, ?_⟩
        · simp only [stepTask]
          rw [b3]
          exact h1
        · simp only [stepTask]
          simp only [createdFor] at h3 ⊢
          rw [b4]
          exact h3
        · simp only [stepTask]
          exact b6
        · intro t htm
          rcases List.mem_or_eq_of_mem_set htm with hm | rfl
          · exact h6 _ hm
          · simp only [stepTask, TaskOk, b2]
      | finished bb cl =>
        rw [htg] at ht
        right
        refine ⟨h1, h3, h5, ?_⟩
        intro t htm
        rcases List.mem_or_eq_of_mem_set htm with hm | rfl
        · exact h6 _ hm
        · exact ht

theorem invP_reachable (oracle : String → LeanVersion) (s₀ : ProviderState)
    (root : String) (hv : (probeValue oracle s₀ root).version = "4")
    (cfg₀ cfg : Config) (hreach : Reachable oracle root cfg₀ cfg)
    (hinv : InvP oracle s₀ root cfg₀) : InvP oracle s₀ root cfg := by
  induction hreach with
  | refl => exact hinv
  | tail hr hs ih => exact invP_step oracle s₀ root hv _ _ hs ih

/-- C2 (amended): over any interleaving of document-opened events for one
root whose probe resolves to the supported major version 4, at most one
client object is ever created for that root, and every call that has
returned yielded that same client reference.  The creating call registers
the client synchronously in its pre-probe segment, which is what every
later or interleaved call observes. -/
theorem ensureClient_single_creation (oracle : String → LeanVersion)
    (s₀ : ProviderState) (root : String) (n : Nat) (cfg : Config)
    (h0 : alookup s₀.clients root = none)
    (hp : root ∉ s₀.pending)
    (hv : (probeValue oracle s₀ root).version = "4")
    (hreach : Reachable oracle root ⟨s₀, List.replicate n TaskSt.start⟩ cfg) :
    (createdFor cfg.s root).length ≤ (createdFor s₀ root).length + 1 ∧
    (∀ t ∈ cfg.tasks, ∀ b cl, t = TaskSt.finished b cl →
      cl = some (freshClient s₀ root)) := by
  have hinv : InvP oracle s₀ root cfg := by
    apply invP_reachable oracle s₀ root hv _ cfg hreach
    left
    refine ⟨h0, hp, rfl, rfl, rfl, ?_⟩
    intro t htm
    exact List.eq_of_mem_replicate htm
  rcases hinv with ⟨h1, h2, h3, h4, h5, h6⟩ | ⟨h1, h3, h5, h6⟩
  · constructor
    · rw [h3]
      omega
    · intro t htm b cl hteq
      rw [h6 _ htm] at hteq
      exact absurd hteq (by simp)
  · constructor
    · rw [h3]
      simp
    · intro t htm b cl hteq
      have hok := h6 _ htm
      rw [hteq] at hok
      exact hok

/-- Empty initial provider state: fresh `LeanClientProvider`. -/
def initialProviderState : ProviderState :=
  { clients := [], versions := [], pending := [], testing := [], nextId := 0,
    created := [], disposed := [], started := [], restarted := [],
    clientAddedEvents := [], activeClient := none }

def demoRoot : String := "file:///ws/Foo"

/-- Installer oracle resolving every root to a Lean 4 toolchain. -/
def demoOracle4 : String → LeanVersion := fun _ => { version := "4", error := none }

/-- Installer oracle resolving every root to a Lean 3 toolchain. -/
def demoOracle3 : String → LeanVersion := fun _ => { version := "3", error := none }

/-- C2 counterexample to the claim as stated: two sequential
document-opened events for one root whose probe resolves to version 3
construct two client objects for that root, because the first
`ensureClient` call disposes and deregisters its optimistically created
client, so the second call allocates another one. -/
theorem ensureClient_two_creations :
    (ensureClient demoOracle3 initialProviderState demoRoot none).2.2 = none ∧
    (createdFor (ensureClient demoOracle3
        (ensureClient demoOracle3 initialProviderState demoRoot none).1 demoRoot none).1
      demoRoot).length = 2 := by
  refine ⟨by decide, by decide⟩

def c2init : Config := ⟨initialProviderState, [TaskSt.start, TaskSt.start]⟩

/-- One scheduler step of the demo machine. -/
def c2step (cfg : Config) (i : Nat) (h : i < cfg.tasks.length) : Config :=
  ⟨(stepTask demoOracle4 demoRoot cfg.s (cfg.tasks.get ⟨i, h⟩)).1,
    cfg.tasks.set i (stepTask demoOracle4 demoRoot cfg.s (cfg.tasks.get ⟨i, h⟩)).2⟩

theorem c2step_step (cfg : Config) (i : Nat) (h : i < cfg.tasks.length) :
    Step demoOracle4 demoRoot cfg (c2step cfg i h) := by
  obtain ⟨s, tasks⟩ := cfg
  exact Step.step s tasks i h

/-- The machine after the first event creates the client and the second
event's call returns it from the registry. -/
def c2cfg : Config := c2step (c2step c2init 0 (by decide)) 1 (by decide)

theorem c2cfg_reachable : Reachable demoOracle4 demoRoot c2init c2cfg :=
  Relation.ReflTransGen.tail
    (Relation.ReflTransGen.single (c2step_step c2init 0 (by decide)))
    (c2step_step (c2step c2init 0 (by decide)) 1 (by decide))

/-- Witness for the amended C2 theorem at a concrete two-event run. -/
theorem ensureClient_single_creation_witness :
    (probeValue demoOracle4 initialProviderState demoRoot).version = "4" ∧
    (createdFor c2cfg.s demoRoot).length ≤
      (createdFor initialProviderState demoRoot).length + 1 :=
  ⟨by decide,
    (ensureClient_single_creation demoOracle4 initialProviderState demoRoot 2 c2cfg
      (by decide) (by decide) (by decide) c2cfg_reachable).1⟩

/-- The relation claimed in the spec for `findConnection`: `c` is a
registered prefix match whose root is longest among all registered prefix
matches of the document path. -/
def LongestPrefixMatch (clients : List LeanClient) (path : String)
    (c : LeanClient) : Prop :=
  c ∈ clients ∧ strStartsWith path c.folder = true ∧
    ∀ c' ∈ clients, strStartsWith path c'.folder = true →
      c'.folder.length ≤ c.folder.length

instance (clients : List LeanClient) (path : String) (c : LeanClient) :
    Decidable (LongestPrefixMatch clients path c) := by
  unfold LongestPrefixMatch
  infer_instance

/-- C1 (amended): `findClient` is first-match in registration order, not
longest-match: it returns `c` exactly when the path is non-empty, `c` is
registered, the path starts with the root of `c`, and no client
registered earlier than `c` matches the path. -/
theorem findClient_first_match (clients : List LeanClient) (path : String)
    (c : LeanClient) :
    findClient clients path = some c ↔
      path ≠ "" ∧ ∃ pre post, clients = pre ++ c :: post ∧
        strStartsWith path c.folder = true ∧
        ∀ c' ∈ pre, strStartsWith path c'.folder = false := by
  unfold findClient
  by_cases hp : path = ""
  · simp [hp]
  · rw [if_neg hp]
    simp only [ne_eq, hp, not_false_eq_true, true_and]
    induction clients with
    | nil =>
      constructor
      · intro h
        simp [List.find?] at h
      · rintro ⟨pre, post, habs, -, -⟩
        exact absurd habs (by simp)
    | cons a rest ih =>
      cases hsw : strStartsWith path a.folder with
      | true =>
        simp only [List.find?, hsw]
        constructor
        · intro h
          have hac : a = c := Option.some.inj h
          subst hac
          exact ⟨[], rest, rfl, hsw, by intro c' hc'; simp at hc'⟩
        · rintro ⟨pre, post, heq, hc, hall⟩
          cases pre with
          | nil =>
            simp only [List.nil_append, List.cons.injEq] at heq
            rw [heq.1]
          | cons a0 pre' =>
            simp only [List.cons_append, List.cons.injEq] at heq
            have hfalse := hall a0 (List.mem_cons_self _ _)
            rw [← heq.1] at hfalse
            rw [hsw] at hfalse
            exact absurd hfalse (by simp)
      | false =>
        simp only [List.find?, hsw]
        rw [ih]
        constructor
        · rintro ⟨pre, post, heq, hc, hall⟩
          refine ⟨a :: pre, post, by rw [heq, List.cons_append], hc, ?_⟩
          intro c' hc'
          rcases List.mem_cons.mp hc' with rfl | hm
          · exact hsw
          · exact hall c' hm
        · rintro ⟨pre, post, heq, hc, hall⟩
          cases pre with
          | nil =>
            simp only [List.nil_append, List.cons.injEq] at heq
            rw [heq.1] at hsw
            rw [hc] at hsw
            exact absurd hsw (by simp)
          | cons a0 pre' =>
            simp only [List.cons_append, List.cons.injEq] at heq
            exact ⟨pre', post, heq.2, hc, fun c' hm => hall c' (List.mem_cons_of_mem _ hm)⟩

def c1outer : LeanClient := { id := 1, folder := "file:///ws/" }

def c1inner : LeanClient := { id := 2, folder := "file:///ws/Foo/" }

/-- C1 counterexample to the claim as stated: with the outer root
registered first, both roots textually match the nested document, yet
`findClient` returns the outer (first-registered) connection, not the
connection of the longest matching root. -/
theorem findClient_not_longest :
    findClient [c1outer, c1inner] "file:///ws/Foo/Bar.lean" = some c1outer ∧
    LongestPrefixMatch [c1outer, c1inner] "file:///ws/Foo/Bar.lean" c1inner ∧
    ¬ LongestPrefixMatch [c1outer, c1inner] "file:///ws/Foo/Bar.lean" c1outer := by
  refine ⟨by decide, by decide, by decide⟩

theorem ensureClientB_foreign (oracle : String → LeanVersion) (s s₀ : ProviderState)
    (root : String) (c : LeanClient)
    (hver : alookup s.versions root = alookup s₀.versions root ∨
            alookup s.versions root = some (probeValue oracle s₀ root))
    (hv4 : (probeValue oracle s₀ root).version ≠ "4")
    (hv0 : (probeValue oracle s₀ root).version ≠ "") :
    (ensureClientB oracle s root c none).2.1 = false ∧
    (ensureClientB oracle s root c none).2.2 = none ∧
    (ensureClientB oracle s root c none).1.clients = aerase s.clients root ∧
    (ensureClientB oracle s root c none).1.pending = sremove s.pending root ∧
    (ensureClientB oracle s root c none).1.created = s.created ∧
    (ensureClientB oracle s root c none).1.disposed = s.disposed ++ [c.id] ∧
    (ensureClientB oracle s root c none).1.clientAddedEvents = s.clientAddedEvents ∧
    (ensureClientB oracle s root c none).1.started = s.started := by
  obtain ⟨g1, g2, g3⟩ := getLeanVersion_spec oracle s s₀ root hver
  rcases hgl : getLeanVersion oracle s root with ⟨s1, v⟩
  rw [hgl] at g1 g2 g3
  dsimp only at g1 g2 g3
  subst g1
  have hcond : ((probeValue oracle s₀ root).version ≠ "" ∧
      (probeValue oracle s₀ root).version ≠ "4") := ⟨hv0, hv4⟩
  simp only [ensureClientB, hgl, if_pos hcond]
  rcases g2 with g2 | g2 <;> subst g2 <;> simp

/-- C3: when the version probe for a fresh root resolves to a major
version other than the supported 4 (for example 3), `ensureClient` returns
`[false, undefined]`, the optimistically registered client is removed from
the registry (which ends exactly as it began) and disposed, the pending
guard is cleared, and no `clientAdded` event fires and no server is
started; the outcome is a foreign project, not a raised error (this path
returns normally). -/
theorem ensureClient_foreign_project (oracle : String → LeanVersion)
    (s : ProviderState) (root : String)
    (h0 : alookup s.clients root = none)
    (hp : root ∉ s.pending)
    (hv4 : (probeValue oracle s root).version ≠ "4")
    (hv0 : (probeValue oracle s root).version ≠ "") :
    (ensureClient oracle s root none).2.1 = false ∧
    (ensureClient oracle s root none).2.2 = none ∧
    (ensureClient oracle s root none).1.clients = s.clients ∧
    (ensureClient oracle s root none).1.pending = s.pending ∧
    (ensureClient oracle s root none).1.created = s.created ++ [freshClient s root] ∧
    (ensureClient oracle s root none).1.disposed = s.disposed ++ [s.nextId] ∧
    (ensureClient oracle s root none).1.clientAddedEvents = s.clientAddedEvents ∧
    (ensureClient oracle s root none).1.started = s.started := by
  have hA : ensureClientA s root =
      ({ s with
          pending := sinsert s.pending root,
          clients := aset s.clients root (freshClient s root),
          nextId := s.nextId + 1,
          created := s.created ++ [freshClient s root] },
        EnsureOutcome.probing (freshClient s root)) := by
    simp only [ensureClientA, h0, if_neg hp]
  have hEC : ensureClient oracle s root none =
      ensureClientB oracle
        { s with
            pending := sinsert s.pending root,
            clients := aset s.clients root (freshClient s root),
            nextId := s.nextId + 1,
            created := s.created ++ [freshClient s root] }
        root (freshClient s root) none := by
    simp only [ensureClient, hA]
  rw [hEC]
  obtain ⟨b1, b2, b3, b4, b5, b6, b7, b8⟩ :=
    ensureClientB_foreign oracle
      { s with
          pending := sinsert s.pending root,
          clients := aset s.clients root (freshClient s root),
          nextId := s.nextId + 1,
          created := s.created ++ [freshClient s root] }
      s root (freshClient s root) (Or.inl rfl) hv4 hv0
  refine ⟨b1, b2, ?_, ?_, ?_, ?_, ?_, ?_⟩
  · rw [b3]
    exact aerase_aset_of_none s.clients root (freshClient s root) h0
  · rw [b4]
    exact sremove_sinsert s.pending root hp
  · rw [b5]
  · rw [b6]
    rfl
  · rw [b7]
  · rw [b8]


/-- Witness for C3 at a concrete Lean 3 root. -/
theorem ensureClient_foreign_project_witness :
    (probeValue demoOracle3 initialProviderState demoRoot).version = "3" ∧
    ((ensureClient demoOracle3 initialProviderState demoRoot none).2.1 = false ∧
      (ensureClient demoOracle3 initialProviderState demoRoot none).2.2 = none ∧
      (ensureClient demoOracle3 initialProviderState demoRoot none).1.clients =
        initialProviderState.clients ∧
      (ensureClient demoOracle3 initialProviderState demoRoot none).1.pending =
        initialProviderState.pending ∧
      (ensureClient demoOracle3 initialProviderState demoRoot none).1.created =
        initialProviderState.created ++ [freshClient initialProviderState demoRoot] ∧
      (ensureClient demoOracle3 initialProviderState demoRoot none).1.disposed =
        initialProviderState.disposed ++ [initialProviderState.nextId] ∧
      (ensureClient demoOracle3 initialProviderState demoRoot none).1.clientAddedEvents =
        initialProviderState.clientAddedEvents ∧
      (ensureClient demoOracle3 initialProviderState demoRoot none).1.started =
        initialProviderState.started) :=
  ⟨by decide,
    ensureClient_foreign_project demoOracle3 initialProviderState demoRoot
      (by decide) (by decide) (by decide) (by decide)⟩

/-- C8: for a creation on a supported-version root the pending guard is
cleared, the `clientAdded` event fires and the client is and stays
registered; the server session is started if and only if the probe
reported no error, and with a pending error the client remains registered
but unstarted. -/
theorem ensureClient_added_and_started (oracle : String → LeanVersion)
    (s : ProviderState) (root : String)
    (h0 : alookup s.clients root = none)
    (hp : root ∉ s.pending)
    (hv : (probeValue oracle s root).version = "4") :
    (ensureClient oracle s root none).1.clientAddedEvents =
      s.clientAddedEvents ++ [s.nextId] ∧
    (ensureClient oracle s root none).1.started =
      (if (probeValue oracle s root).error = none then s.started ++ [s.nextId]
        else s.started) ∧
    alookup (ensureClient oracle s root none).1.clients root =
      some (freshClient s root) ∧
    (ensureClient oracle s root none).2.2 = some (freshClient s root) ∧
    (ensureClient oracle s root none).1.pending = s.pending := by
  have hA : ensureClientA s root =
      ({ s with
          pending := sinsert s.pending root,
          clients := aset s.clients root (freshClient s root),
          nextId := s.nextId + 1,
          created := s.created ++ [freshClient s root] },
        EnsureOutcome.probing (freshClient s root)) := by
    simp only [ensureClientA, h0, if_neg hp]
  have hEC : ensureClient oracle s root none =
      ensureClientB oracle
        { s with
            pending := sinsert s.pending root,
            clients := aset s.clients root (freshClient s root),
            nextId := s.nextId + 1,
            created := s.created ++ [freshClient s root] }
        root (freshClient s root) none := by
    simp only [ensureClient, hA]
  rw [hEC]
  obtain ⟨b1, b2, b3, b4, b5, b6, b7, b8, b9⟩ :=
    ensureClientB_supported oracle
      { s with
          pending := sinsert s.pending root,
          clients := aset s.clients root (freshClient s root),
          nextId := s.nextId + 1,
          created := s.created ++ [freshClient s root] }
      s root (freshClient s root) (Or.inl rfl) hv
  refine ⟨?_, ?_, ?_, b2, ?_⟩
  · rw [b7]
    rfl
  · rw [b8]
    rfl
  · rw [b3]
    exact alookup_aset_self s.clients root (freshClient s root)
  · rw [b9]
    exact sremove_sinsert s.pending root hp

/-- Installer oracle reporting a supported version with a pending
interactive error. -/
def demoOracle4err : String → LeanVersion :=
  fun _ => { version := "4", error := some "toolchain selection in progress" }

/-- Witness for C8, once with a clean probe (server started) and once with
a pending interactive error (registered but not started). -/
theorem ensureClient_added_and_started_witness :
    ((ensureClient demoOracle4 initialProviderState demoRoot none).1.clientAddedEvents =
        initialProviderState.clientAddedEvents ++ [initialProviderState.nextId] ∧
      (ensureClient demoOracle4 initialProviderState demoRoot none).1.started =
        (if (probeValue demoOracle4 initialProviderState demoRoot).error = none
          then initialProviderState.started ++ [initialProviderState.nextId]
          else initialProviderState.started) ∧
      alookup (ensureClient demoOracle4 initialProviderState demoRoot none).1.clients
          demoRoot = some (freshClient initialProviderState demoRoot) ∧
      (ensureClient demoOracle4 initialProviderState demoRoot none).2.2 =
        some (freshClient initialProviderState demoRoot) ∧
      (ensureClient demoOracle4 initialProviderState demoRoot none).1.pending =
        initialProviderState.pending) ∧
    ((ensureClient demoOracle4err initialProviderState demoRoot none).1.clientAddedEvents =
        initialProviderState.clientAddedEvents ++ [initialProviderState.nextId] ∧
      (ensureClient demoOracle4err initialProviderState demoRoot none).1.started =
        (if (probeValue demoOracle4err initialProviderState demoRoot).error = none
          then initialProviderState.started ++ [initialProviderState.nextId]
          else initialProviderState.started) ∧
      alookup (ensureClient demoOracle4err initialProviderState demoRoot none).1.clients
          demoRoot = some (freshClient initialProviderState demoRoot) ∧
      (ensureClient demoOracle4err initialProviderState demoRoot none).2.2 =
        some (freshClient initialProviderState demoRoot) ∧
      (ensureClient demoOracle4err initialProviderState demoRoot none).1.pending =
        initialProviderState.pending) :=
  ⟨ensureClient_added_and_started demoOracle4 initialProviderState demoRoot
      (by decide) (by decide) (by decide),
    ensureClient_added_and_started demoOracle4err initialProviderState demoRoot
      (by decide) (by decide) (by decide)⟩

/-- C7: the toolchain-change handler drops (state unchanged, nothing
queued) a signal whose own trigger-location string is still being handled;
and when the fresh re-probe resolves to the supported version for a root
that already has a registered connection, `ensureClient` reports it as
cached and exactly that connection is restarted, with no new connection
object created and the registry unchanged. -/
theorem installChanged_guard_and_restart (oracle : String → LeanVersion)
    (s : ProviderState) (sigPath root : String) (c : LeanClient) (v : LeanVersion)
    (hc : alookup s.clients root = some c) (hv : v.version = "4") :
    (sigPath ∈ s.testing → installChangedA s sigPath = (s, false)) ∧
    (installChangedB oracle s sigPath root v).2 = some c.id ∧
    (installChangedB oracle s sigPath root v).1.restarted = s.restarted ++ [c.id] ∧
    (installChangedB oracle s sigPath root v).1.created = s.created ∧
    (installChangedB oracle s sigPath root v).1.clients = s.clients := by
  have hEC : ensureClient oracle s root (some v) =
      ({ s with activeClient := some c }, true, some c) := by
    simp only [ensureClient, ensureClientA, hc]
  refine ⟨?_, ?_, ?_, ?_, ?_⟩
  · intro hmem
    simp only [installChangedA, if_pos hmem]
  · simp only [installChangedB, if_pos hv, hEC]
  · simp only [installChangedB, if_pos hv, hEC]
  · simp only [installChangedB, if_pos hv, hEC]
  · simp only [installChangedB, if_pos hv, hEC]

def c7client : LeanClient := { id := 3, folder := "file:///ws/Foo" }

/-- Provider state with a registered running client for the demo root, the
toolchain-change handler currently handling a signal for the demo
toolchain file. -/
def c7state : ProviderState :=
  { initialProviderState with
    clients := [(demoRoot, c7client)],
    testing := ["file:///ws/Foo/lean-toolchain"],
    nextId := 4 }

/-- Witness for C7: a repeated signal for the in-flight trigger location is
dropped, and a re-probe resolving to version 4 restarts the registered
client in place. -/
theorem installChanged_guard_and_restart_witness :
    installChangedA c7state "file:///ws/Foo/lean-toolchain" = (c7state, false) ∧
    (installChangedB demoOracle4 c7state "file:///ws/Foo/lean-toolchain" demoRoot
        { version := "4", error := none }).2 = some 3 ∧
    (installChangedB demoOracle4 c7state "file:///ws/Foo/lean-toolchain" demoRoot
        { version := "4", error := none }).1.created = c7state.created :=
  ⟨(installChanged_guard_and_restart demoOracle4 c7state "file:///ws/Foo/lean-toolchain"
      demoRoot c7client { version := "4", error := none } (by decide) (by decide)).1
      (by decide),
    (installChanged_guard_and_restart demoOracle4 c7state "file:///ws/Foo/lean-toolchain"
      demoRoot c7client { version := "4", error := none } (by decide) (by decide)).2.1,
    (installChanged_guard_and_restart demoOracle4 c7state "file:///ws/Foo/lean-toolchain"
      demoRoot c7client { version := "4", error := none } (by decide) (by decide)).2.2.2.1⟩

/-- The C4 invariant: every entry of a subscription table carries a
positive reference count, so a count is positive precisely when an entry
exists. -/
def TableOk (t : List (String × Nat × List Handle)) : Prop :=
  ∀ e ∈ t, 0 < e.2.1

theorem tableOk_aset (t : List (String × Nat × List Handle)) (k : String)
    (v : Nat × List Handle) (h : TableOk t) (hn : 0 < v.1) :
    TableOk (aset t k v) := by
  induction t with
  | nil =>
    intro e he
    simp only [aset, List.mem_singleton] at he
    rw [he]
    exact hn
  | cons kv rest ih =>
    obtain ⟨k', v'⟩ := kv
    intro e he
    by_cases hk : k' = k
    · simp only [aset, if_pos hk] at he
      rcases List.mem_cons.mp he with rfl | hm
      · exact hn
      · exact h e (List.mem_cons_of_mem _ hm)
    · simp only [aset, if_neg hk] at he
      rcases List.mem_cons.mp he with rfl | hm
      · exact h _ (List.mem_cons_self _ _)
      · exact ih (fun e' he' => h e' (List.mem_cons_of_mem _ he')) e hm

theorem tableOk_aerase (t : List (String × Nat × List Handle)) (k : String)
    (h : TableOk t) : TableOk (aerase t k) := by
  intro e he
  exact h e (List.mem_of_mem_filter he)

/-- C4: unsubscribing at reference count above one only decrements the
count and keeps the handles undisposed; unsubscribing at count one
disposes every handle of the entry and deletes it; unsubscribing an absent
method is a contract-violation error with no state change; and the
positive-count invariant is preserved by every subscribe and unsubscribe,
on both the server- and the client-notification tables. -/
theorem unsubscribe_refcount_contract (s : InfoState) (m : String) :
    (∀ n hs, alookup s.serverNotifSubscriptions m = some (n, hs) → 1 < n →
      unsubscribeServerNotifications s m =
        Except.ok { s with serverNotifSubscriptions := aset s.serverNotifSubscriptions m (n - 1, hs) }) ∧
    (∀ hs, alookup s.serverNotifSubscriptions m = some (1, hs) →
      unsubscribeServerNotifications s m =
        Except.ok { s with
          disposedHandles := s.disposedHandles ++ hs.map Handle.hid,
          serverNotifSubscriptions := aerase s.serverNotifSubscriptions m }) ∧
    (alookup s.serverNotifSubscriptions m = none →
      unsubscribeServerNotifications s m =
        Except.error ("trying to unsubscribe from " ++ m ++ " with no active subscriptions")) ∧
    (∀ n hs, alookup s.clientNotifSubscriptions m = some (n, hs) → 1 < n →
      unsubscribeClientNotifications s m =
        Except.ok { s with clientNotifSubscriptions := aset s.clientNotifSubscriptions m (n - 1, hs) }) ∧
    (∀ hs, alookup s.clientNotifSubscriptions m = some (1, hs) →
      unsubscribeClientNotifications s m =
        Except.ok { s with
          disposedHandles := s.disposedHandles ++ hs.map Handle.hid,
          clientNotifSubscriptions := aerase s.clientNotifSubscriptions m }) ∧
    (alookup s.clientNotifSubscriptions m = none →
      unsubscribeClientNotifications s m =
        Except.error ("trying to unsubscribe from " ++ m ++ " with no active subscriptions")) ∧
    (∀ s', TableOk s.serverNotifSubscriptions →
      unsubscribeServerNotifications s m = Except.ok s' →
      TableOk s'.serverNotifSubscriptions) ∧
    (∀ s', TableOk s.clientNotifSubscriptions →
      unsubscribeClientNotifications s m = Except.ok s' →
      TableOk s'.clientNotifSubscriptions) ∧
    (∀ s', TableOk s.serverNotifSubscriptions →
      subscribeServerNotifications s m = Except.ok s' →
      TableOk s'.serverNotifSubscriptions) ∧
    (∀ s', TableOk s.clientNotifSubscriptions →
      subscribeClientNotifications s m = Except.ok s' →
      TableOk s'.clientNotifSubscriptions) := by
  refine ⟨?_, ?_, ?_, ?_, ?_, ?_, ?_, ?_, ?_, ?_⟩
  · intro n hs hlk hn
    simp only [unsubscribeServerNotifications, hlk, if_neg (by omega : ¬ n = 1)]
  · intro hs hlk
    simp [unsubscribeServerNotifications, hlk]
  · intro hlk
    simp only [unsubscribeServerNotifications, hlk]
  · intro n hs hlk hn
    simp only [unsubscribeClientNotifications, hlk, if_neg (by omega : ¬ n = 1)]
  · intro hs hlk
    simp [unsubscribeClientNotifications, hlk]
  · intro hlk
    simp only [unsubscribeClientNotifications, hlk]
  · intro s' hok heq
    cases hlk : alookup s.serverNotifSubscriptions m with
    | none => simp [unsubscribeServerNotifications, hlk] at heq
    | some e =>
      obtain ⟨count, subs⟩ := e
      have hcpos : 0 < count := hok _ (alookup_mem _ _ _ hlk)
      by_cases hc1 : count = 1
      · subst hc1
        simp [unsubscribeServerNotifications, hlk] at heq
        subst heq
        exact tableOk_aerase _ _ hok
      · simp only [unsubscribeServerNotifications, hlk, if_neg hc1, Except.ok.injEq] at heq
        subst heq
        exact tableOk_aset _ _ _ hok (by omega)
  · intro s' hok heq
    cases hlk : alookup s.clientNotifSubscriptions m with
    | none => simp [unsubscribeClientNotifications, hlk] at heq
    | some e =>
      obtain ⟨count, subs⟩ := e
      have hcpos : 0 < count := hok _ (alookup_mem _ _ _ hlk)
      by_cases hc1 : count = 1
      · subst hc1
        simp [unsubscribeClientNotifications, hlk] at heq
        subst heq
        exact tableOk_aerase _ _ hok
      · simp only [unsubscribeClientNotifications, hlk, if_neg hc1, Except.ok.injEq] at heq
        subst heq
        exact tableOk_aset _ _ _ hok (by omega)
  · intro s' hok heq
    cases hlk : alookup s.serverNotifSubscriptions m with
    | none =>
      by_cases hal : serverMethodOk m
      · simp only [subscribeServerNotifications, hlk, if_pos hal, Except.ok.injEq] at heq
        subst heq
        exact tableOk_aset _ _ _ hok (by omega)
      · simp [subscribeServerNotifications, hlk, if_neg hal] at heq
    | some e =>
      obtain ⟨count, subs⟩ := e
      simp only [subscribeServerNotifications, hlk, Except.ok.injEq] at heq
      subst heq
      exact tableOk_aset _ _ _ hok (by omega)
  · intro s' hok heq
    cases hlk : alookup s.clientNotifSubscriptions m with
    | none =>
      by_cases hal : clientMethodOk m
      · simp only [subscribeClientNotifications, hlk, if_pos hal, Except.ok.injEq] at heq
        subst heq
        exact tableOk_aset _ _ _ hok (by omega)
      · simp [subscribeClientNotifications, hlk, if_neg hal] at heq
    | some e =>
      obtain ⟨count, subs⟩ := e
      simp only [subscribeClientNotifications, hlk, Except.ok.injEq] at heq
      subst heq
      exact tableOk_aset _ _ _ hok (by omega)

def c4h1 : Handle := { hid := 0, clientId := 5, method := publishDiagnosticsMethod }

def c4h2 : Handle := { hid := 1, clientId := 5, method := didChangeMethod }

/-- Infoview state with a doubly referenced diagnostics subscription and a
singly referenced didChange subscription. -/
def c4state : InfoState :=
  { providerClients := [{ id := 5, folder := "file:///ws/" }],
    serverNotifSubscriptions := [(publishDiagnosticsMethod, 2, [c4h1])],
    clientNotifSubscriptions := [(didChangeMethod, 1, [c4h2])],
    rpcSessions := [], nextHandleId := 2, disposedHandles := [],
    disposedSessions := [], webviewPresent := true }

/-- Witness for C4: decrement at count two, dispose-and-delete at count
one, and a contract-violation error for a method with no entry. -/
theorem unsubscribe_refcount_contract_witness :
    unsubscribeServerNotifications c4state publishDiagnosticsMethod =
      Except.ok { c4state with serverNotifSubscriptions := aset c4state.serverNotifSubscriptions publishDiagnosticsMethod (1, [c4h1]) } ∧
    unsubscribeClientNotifications c4state didChangeMethod =
      Except.ok { c4state with
        disposedHandles := c4state.disposedHandles ++ [c4h2].map Handle.hid,
        clientNotifSubscriptions := aerase c4state.clientNotifSubscriptions didChangeMethod } ∧
    unsubscribeServerNotifications c4state didCloseMethod =
      Except.error ("trying to unsubscribe from " ++ didCloseMethod ++ " with no active subscriptions") :=
  ⟨(unsubscribe_refcount_contract c4state publishDiagnosticsMethod).1 2 [c4h1]
      (by decide) (by decide),
    (unsubscribe_refcount_contract c4state didChangeMethod).2.2.2.2.1 [c4h2] (by decide),
    (unsubscribe_refcount_contract c4state didCloseMethod).2.2.1 (by decide)⟩

theorem pushRestartHandles_le (clientId : Nat) (ok : String → Bool)
    (t : List (String × Nat × List Handle)) (nextId : Nat) :
    nextId ≤ (pushRestartHandles clientId ok t nextId).2 := by
  induction t generalizing nextId with
  | nil => simp [pushRestartHandles]
  | cons e rest ih =>
    obtain ⟨m, count, subs⟩ := e
    by_cases hm : ok m
    · simp only [pushRestartHandles, if_pos hm]
      have hnext := ih (nextId + 1)
      omega
    · simp only [pushRestartHandles, if_neg hm]
      exact ih nextId

theorem pushRestartHandles_lookup (clientId : Nat) (ok : String → Bool)
    (t : List (String × Nat × List Handle)) (nextId : Nat) (m : String)
    (n : Nat) (hs : List Handle) (hok : ok m = true)
    (hlk : alookup t m = some (n, hs)) :
    ∃ k, nextId ≤ k ∧
      alookup (pushRestartHandles clientId ok t nextId).1 m =
        some (n, hs ++ [{ hid := k, clientId := clientId, method := m }]) := by
  induction t generalizing nextId with
  | nil => simp [alookup] at hlk
  | cons e rest ih =>
    obtain ⟨m', count, subs⟩ := e
    by_cases hm : m' = m
    · subst hm
      simp only [alookup, if_pos rfl] at hlk
      obtain ⟨hn, hhs⟩ := Prod.mk.injEq .. ▸ Option.some.inj hlk
      subst hn
      subst hhs
      simp only [pushRestartHandles, if_pos hok, alookup, if_pos rfl]
      exact ⟨nextId, le_refl _, rfl⟩
    · simp only [alookup, if_neg hm] at hlk
      by_cases hoh : ok m'
      · simp only [pushRestartHandles, if_pos hoh, alookup, if_neg hm]
        obtain ⟨k, hk1, hk2⟩ := ih (nextId + 1) hlk
        exact ⟨k, by omega, hk2⟩
      · simp only [pushRestartHandles, if_neg hoh, alookup, if_neg hm]
        exact ih nextId hlk

/-- C5 (amended): a restart event appends exactly one new handler for the
restarted connection to every subscribed method, on both subscription
tables (every table entry carries an allow-listed method shape), so no
subscribed method is left without a handler on that connection; but the
handlers already installed for it are not removed, so the number of
installed handlers grows by one with each restart instead of staying at
exactly one. -/
theorem onClientRestarted_adds_handler (s : InfoState) (c : Nat) (m : String)
    (hfresh : ∀ h ∈ s.disposedHandles, h < s.nextHandleId) :
    (∀ n hs, alookup s.serverNotifSubscriptions m = some (n, hs) →
      serverMethodOk m = true →
      handlersForServer (onClientRestarted s c) c m = handlersForServer s c m + 1) ∧
    (∀ n hs, alookup s.clientNotifSubscriptions m = some (n, hs) →
      clientMethodOk m = true →
      handlersForClient (onClientRestarted s c) c m = handlersForClient s c m + 1) := by
  have hknot : ∀ k, s.nextHandleId ≤ k → k ∉ s.disposedHandles := by
    intro k hk hmem
    have hklt := hfresh k hmem
    omega
  constructor
  · intro n hs hm hshape
    have hle : s.nextHandleId ≤
        (pushRestartHandles c clientMethodOk s.clientNotifSubscriptions s.nextHandleId).2 :=
      pushRestartHandles_le c clientMethodOk s.clientNotifSubscriptions s.nextHandleId
    obtain ⟨k, hk1, hk2⟩ := pushRestartHandles_lookup c serverMethodOk
      s.serverNotifSubscriptions
      (pushRestartHandles c clientMethodOk s.clientNotifSubscriptions s.nextHandleId).2
      m n hs hshape hm
    have hdisp : (onClientRestarted s c).disposedHandles = s.disposedHandles := rfl
    have hserver : (onClientRestarted s c).serverNotifSubscriptions =
        (pushRestartHandles c serverMethodOk s.serverNotifSubscriptions
          (pushRestartHandles c clientMethodOk s.clientNotifSubscriptions s.nextHandleId).2).1 := rfl
    have hknotmem : k ∉ s.disposedHandles := hknot k (by omega)
    simp only [handlersForServer, hserver, hdisp, hk2, hm]
    rw [List.filter_append, List.length_append]
    simp [hknotmem]
  · intro n hs hm hshape
    obtain ⟨k, hk1, hk2⟩ := pushRestartHandles_lookup c clientMethodOk
      s.clientNotifSubscriptions s.nextHandleId m n hs hshape hm
    have hdisp : (onClientRestarted s c).disposedHandles = s.disposedHandles := rfl
    have hclient : (onClientRestarted s c).clientNotifSubscriptions =
        (pushRestartHandles c clientMethodOk s.clientNotifSubscriptions s.nextHandleId).1 := rfl
    have hknotmem : k ∉ s.disposedHandles := hknot k hk1
    simp only [handlersForClient, hclient, hdisp, hk2, hm]
    rw [List.filter_append, List.length_append]
    simp [hknotmem]

def c5client : LeanClient := { id := 7, folder := "file:///ws/Foo/" }

/-- Fresh infoview state with one running client and no subscriptions. -/
def c5s0 : InfoState :=
  { providerClients := [c5client], serverNotifSubscriptions := [],
    clientNotifSubscriptions := [], rpcSessions := [], nextHandleId := 0,
    disposedHandles := [], disposedSessions := [], webviewPresent := true }

/-- State after the infoview subscribes to diagnostics once. -/
def c5s1 : InfoState :=
  { c5s0 with
    serverNotifSubscriptions :=
      [(publishDiagnosticsMethod, 1,
        [{ hid := 0, clientId := 7, method := publishDiagnosticsMethod }])],
    nextHandleId := 1 }

/-- C5 counterexample to the claim as stated: subscribing to diagnostics
installs one handler on client 7; after that client restarts, the method
has two installed (undisposed) handlers for it, because the restart pushes
a new handler without removing the old one. -/
theorem onClientRestarted_duplicates :
    subscribeServerNotifications c5s0 publishDiagnosticsMethod = Except.ok c5s1 ∧
    handlersForServer c5s1 7 publishDiagnosticsMethod = 1 ∧
    handlersForServer (onClientRestarted c5s1 7) 7 publishDiagnosticsMethod = 2 := by
  refine ⟨by rfl, by decide, by decide⟩

/-- State with one diagnostics subscription and one didChange
subscription, each holding a handler installed on client 7. -/
def c5s2 : InfoState :=
  { c5s0 with
    serverNotifSubscriptions :=
      [(publishDiagnosticsMethod, 1,
        [{ hid := 0, clientId := 7, method := publishDiagnosticsMethod }])],
    clientNotifSubscriptions :=
      [(didChangeMethod, 1,
        [{ hid := 1, clientId := 7, method := didChangeMethod }])],
    nextHandleId := 2 }

/-- Witness for the amended C5 theorem, exercising both subscription
tables at a concrete subscribed state. -/
theorem onClientRestarted_adds_handler_witness :
    (handlersForServer (onClientRestarted c5s2 7) 7 publishDiagnosticsMethod =
      handlersForServer c5s2 7 publishDiagnosticsMethod + 1) ∧
    (handlersForClient (onClientRestarted c5s2 7) 7 didChangeMethod =
      handlersForClient c5s2 7 didChangeMethod + 1) :=
  ⟨(onClientRestarted_adds_handler c5s2 7 publishDiagnosticsMethod (by decide)).1 1
      [{ hid := 0, clientId := 7, method := publishDiagnosticsMethod }]
      (by decide) (by decide),
    (onClientRestarted_adds_handler c5s2 7 didChangeMethod (by decide)).2 1
      [{ hid := 1, clientId := 7, method := didChangeMethod }]
      (by decide) (by decide)⟩

def c6sessA : RpcSession :=
  { sessionId := "sessA", clientId := 7, uri := "file:///ws/Foo/A.lean",
    heartbeatActive := true }

def c6sessB : RpcSession :=
  { sessionId := "sessB", clientId := 8, uri := "file:///ws/Bar/B.lean",
    heartbeatActive := true }

/-- Infoview state with live RPC sessions for two different clients. -/
def c6state : InfoState :=
  { providerClients := [{ id := 7, folder := "file:///ws/Foo/" },
      { id := 8, folder := "file:///ws/Bar/" }],
    serverNotifSubscriptions := [], clientNotifSubscriptions := [],
    rpcSessions := [("sessA", c6sessA), ("sessB", c6sessB)],
    nextHandleId := 0, disposedHandles := [], disposedSessions := [],
    webviewPresent := true }

/-- C6 code bug exhibited: removing client 7 runs the empty todo stub
`onClientRemoved`, leaving client 7's session in the table with its
heartbeat still running, whereas the available `clearRpcSessions` helper
(which the code invokes only on client restart and on infoview teardown)
would remove exactly that session, dispose it, and keep the other client's
session untouched and running. -/
theorem onClientRemoved_leaves_sessions :
    onClientRemoved c6state 7 = c6state ∧
    alookup (onClientRemoved c6state 7).rpcSessions "sessA" = some c6sessA ∧
    c6sessA.heartbeatActive = true ∧
    alookup (clearRpcSessions c6state (some 7)).rpcSessions "sessA" = none ∧
    alookup (clearRpcSessions c6state (some 7)).rpcSessions "sessB" = some c6sessB ∧
    (clearRpcSessions c6state (some 7)).disposedSessions = [RpcSession.dispose c6sessA] ∧
    c6sessB.heartbeatActive = true := by
  refine ⟨rfl, by decide, by decide, by decide, by decide, by decide, by decide⟩

/-- C9: if the infoview panel has closed by the time the rpc/connect reply
arrives, the freshly created session is immediately disposed (its
heartbeat cleared in the disposal ledger), it is never added to the
session table (the state is otherwise untouched), and the call fails with
an error. -/
theorem createRpcSession_webview_closed (s : InfoState) (uri sid : String)
    (c : LeanClient)
    (hc : findClient s.providerClients uri = some c)
    (hw : s.webviewPresent = false) :
    createRpcSession s uri sid =
      ({ s with disposedSessions := s.disposedSessions ++
          [{ sessionId := sid, clientId := c.id, uri := uri, heartbeatActive := false }] },
        Except.error "infoview disconnect while connecting to RPC session") := by
  simp [createRpcSession, hc, hw, RpcSession.dispose]

def c9client : LeanClient := { id := 9, folder := "file:///ws/Foo/" }

/-- Infoview state whose webview panel has been closed. -/
def c9state : InfoState :=
  { providerClients := [c9client], serverNotifSubscriptions := [],
    clientNotifSubscriptions := [], rpcSessions := [], nextHandleId := 0,
    disposedHandles := [], disposedSessions := [], webviewPresent := false }

/-- Witness for C9. -/
theorem createRpcSession_webview_closed_witness :
    createRpcSession c9state "file:///ws/Foo/A.lean" "sess1" =
      ({ c9state with disposedSessions := c9state.disposedSessions ++
          [{ sessionId := "sess1", clientId := 9, uri := "file:///ws/Foo/A.lean",
              heartbeatActive := false }] },
        Except.error "infoview disconnect while connecting to RPC session") :=
  createRpcSession_webview_closed c9state "file:///ws/Foo/A.lean" "sess1" c9client
    (by decide) (by decide)

/-- C10: opening an RPC session for a document that no active connection
owns returns the empty string as the session id, raises nothing, and
leaves the state entirely unchanged: no session is allocated or added. -/
theorem createRpcSession_no_client (s : InfoState) (uri sid : String)
    (h : findClient s.providerClients uri = none) :
    createRpcSession s uri sid = (s, Except.ok "") := by
  simp [createRpcSession, h]

/-- Witness for C10. -/
theorem createRpcSession_no_client_witness :
    createRpcSession c5s0 "file:///other/B.lean" "sess2" = (c5s0, Except.ok "") :=
  createRpcSession_no_client c5s0 "file:///other/B.lean" "sess2" (by decide)
